import Mathlib

/-!
Verification of the t38c response decoder and database facade.

The development shallowly embeds the Go sources:
  * `response.go` (`Response`, `UnmarshalText`, `parse`, `parsefields`)
  * `db.go` (`Database`, `runcmd`, `Get`, `Set`, `Scan`, `Search`, `Del`,
    `PDel`, `Expire`, `Persist`, `TTL`, `Close`)
  * `error.go` (`t38cError`, `newError`, `newErrorf`)

External collaborators (the `gjson` JSON scanner, Go's `time.Parse`, the
`radix` connection pool) are modelled by executable Lean functions that
reproduce the behaviour the embedded code depends on.
-/

namespace T38c

/-! ## The JSON value model (gjson results)

`gjson.ParseBytes` over a syntactically valid document yields a tree of
results.  A result carries `Type`, `Raw` (the raw source text), `Str`
(the unquoted content for string values, empty otherwise) and `Num`
(the numeric value for numbers, `0` otherwise).  `GVal` models a parsed
value; the accessors below model the result fields.  JSON numbers keep
their raw text together with an exact rational reading of the binary
value `gjson` stores in `Num`. -/

inductive GVal where
  | gnull : GVal
  | gtrue : GVal
  | gfalse : GVal
  | gnum (raw : String) (num : ℚ) : GVal
  | gstr (s : String) : GVal
  | garr (raw : String) (elems : List GVal) : GVal
  | gobj (raw : String) (members : List (String × GVal)) : GVal

/-- JSON string escaping used to recover the raw source text of a
string value (quotes and backslashes escaped). -/
def escapeChar (c : Char) : String :=
  if c = '"' then "\\\"" else if c = '\\' then "\\\\" else String.singleton c

def escapeStr (s : String) : String :=
  String.join (s.data.map escapeChar)

/-- The `Raw` field of a parsed result: the raw source text of the
value.  Scalars carry their literal text; objects and arrays carry the
source substring they were parsed from, recorded on the constructor. -/
def GVal.raw : GVal → String
  | .gnull => "null"
  | .gtrue => "true"
  | .gfalse => "false"
  | .gnum raw _ => raw
  | .gstr s => "\"" ++ escapeStr s ++ "\""
  | .garr raw _ => raw
  | .gobj raw _ => raw

/-- The `Str` field of a parsed result: the unquoted content for string
values, empty for every other kind (numbers, booleans, null, objects and
arrays leave `Str` at its zero value). -/
def GVal.str : GVal → String
  | .gstr s => s
  | _ => ""

/-- The `Num` field of a parsed result: the numeric value for numbers,
`0` for every other kind. -/
def GVal.num : GVal → ℚ
  | .gnum _ n => n
  | _ => 0

/-- Whether the result has type `gjson.JSON`, i.e. is an object or an
array. -/
def GVal.isJsonKind : GVal → Bool
  | .gobj _ _ => true
  | .garr _ _ => true
  | _ => false

/-- `gjson.Result.IsArray`. -/
def GVal.isArr : GVal → Bool
  | .garr _ _ => true
  | _ => false

/-- `gjson.Result.IsObject`. -/
def GVal.isObj : GVal → Bool
  | .gobj _ _ => true
  | _ => false

/-- Go's `strconv.ParseBool` with the error discarded: `true` exactly
for the six accepted true spellings, `false` (the zero value) for
everything else. -/
def goParseBool (s : String) : Bool :=
  s == "1" || s == "t" || s == "T" || s == "true" || s == "TRUE" || s == "True"

/-- `gjson.Result.Bool()`: `True` results are true, strings go through
`strconv.ParseBool`, numbers are true when nonzero, everything else is
false. -/
def GVal.toBool : GVal → Bool
  | .gtrue => true
  | .gstr s => goParseBool s
  | .gnum _ n => decide (n ≠ 0)
  | _ => false

/-- `gjson.ForEach` iteration: over an object it passes key/value pairs
in document order (the key result's `Str` holds the member name); over
an array it passes the elements (the key result's `Str` is empty); over
any other existing value it passes the value itself once with an empty
key. -/
def forEachKV : GVal → List (String × GVal)
  | .gobj _ ms => ms
  | .garr _ xs => xs.map fun x => ("", x)
  | v => [("", v)]

/-- The values visited by `gjson.ForEach` (used where the iterator
ignores the key, as in `ids` and `objects`). -/
def forEachVals : GVal → List GVal
  | .gobj _ ms => ms.map Prod.snd
  | .garr _ xs => xs
  | v => [v]

/-! ## Go time values

`time.Parse(time.RFC3339Nano, s)` is modelled by an executable parser
of `YYYY-MM-DDTHH:MM:SS[.fraction](Z|±HH:MM)` with the range checks Go
performs; on failure Go returns the zero `time.Time` together with an
error, and the decoder discards the error. -/

structure GoTime where
  year : Nat
  month : Nat
  day : Nat
  hour : Nat
  minute : Nat
  second : Nat
  nanosecond : Nat
  offsetSeconds : Int
deriving DecidableEq, Repr

/-- The zero `time.Time`: January 1 of year 1, 00:00:00 UTC. -/
def zeroGoTime : GoTime := ⟨1, 1, 1, 0, 0, 0, 0, 0⟩

def isDigitCh (c : Char) : Bool := 48 ≤ c.toNat && c.toNat ≤ 57

def digitVal (c : Char) : Nat := c.toNat - 48

/-- Read exactly `n` decimal digits, accumulating their value. -/
def readFixedDigits : Nat → Nat → List Char → Option (Nat × List Char)
  | 0, acc, cs => some (acc, cs)
  | _ + 1, _, [] => none
  | n + 1, acc, c :: rest =>
      if isDigitCh c then readFixedDigits n (acc * 10 + digitVal c) rest else none

def expectChar (c : Char) : List Char → Option (List Char)
  | [] => none
  | d :: rest => if d = c then some rest else none

def natOfDigits (ds : List Char) : Nat :=
  ds.foldl (fun acc c => acc * 10 + digitVal c) 0

/-- Optional fractional seconds: a dot followed by one to nine digits,
scaled to nanoseconds; absent fraction reads as zero. -/
def readFrac (cs : List Char) : Option (Nat × List Char) :=
  match cs with
  | '.' :: rest =>
      let ds := rest.takeWhile isDigitCh
      if ds.length = 0 ∨ 9 < ds.length then none
      else some (natOfDigits ds * 10 ^ (9 - ds.length), rest.drop ds.length)
  | _ => some (0, cs)

/-- Time zone suffix: `Z` for UTC or a signed `HH:MM` offset, which must
end the input. -/
def readOffset (cs : List Char) : Option Int :=
  match cs with
  | ['Z'] => some 0
  | '+' :: rest => do
      let (h, rest) ← readFixedDigits 2 0 rest
      let rest ← expectChar ':' rest
      let (m, rest) ← readFixedDigits 2 0 rest
      if rest = [] ∧ m ≤ 59 then some ((h * 3600 + m * 60 : Nat) : Int) else none
  | '-' :: rest => do
      let (h, rest) ← readFixedDigits 2 0 rest
      let rest ← expectChar ':' rest
      let (m, rest) ← readFixedDigits 2 0 rest
      if rest = [] ∧ m ≤ 59 then some (-((h * 3600 + m * 60 : Nat) : Int)) else none
  | _ => none

def isLeapYear (y : Nat) : Bool := y % 4 = 0 && (y % 100 ≠ 0 || y % 400 = 0)

def daysInMonth (y m : Nat) : Nat :=
  if m = 2 then (if isLeapYear y then 29 else 28)
  else if m = 4 ∨ m = 6 ∨ m = 9 ∨ m = 11 then 30
  else 31

/-- Model of `time.Parse(time.RFC3339Nano, s)`, returning `none` where
Go returns a parse error. -/
def parseRFC3339Nano (s : String) : Option GoTime := do
  let cs := s.data
  let (y, cs) ← readFixedDigits 4 0 cs
  let cs ← expectChar '-' cs
  let (mo, cs) ← readFixedDigits 2 0 cs
  let cs ← expectChar '-' cs
  let (d, cs) ← readFixedDigits 2 0 cs
  let cs ← expectChar 'T' cs
  let (h, cs) ← readFixedDigits 2 0 cs
  let cs ← expectChar ':' cs
  let (mi, cs) ← readFixedDigits 2 0 cs
  let cs ← expectChar ':' cs
  let (sec, cs) ← readFixedDigits 2 0 cs
  let (ns, cs) ← readFrac cs
  let off ← readOffset cs
  if 1 ≤ mo ∧ mo ≤ 12 ∧ 1 ≤ d ∧ d ≤ daysInMonth y mo ∧ h ≤ 23 ∧ mi ≤ 59 ∧ sec ≤ 59 then
    some ⟨y, mo, d, h, mi, sec, ns, off⟩
  else none

/-! ## The Response model (`response.go`) -/

/-- `Response` from `response.go`.  Go's `map[string]int64` is modelled
as an association list in insertion order (`upsert` below reproduces
map assignment); `float64` fields are modelled as exact rationals.  The
unexported running counter `fields` is part of the struct. -/
structure Response where
  ID : String := ""
  Object : String := ""
  IDs : List String := []
  Objects : List String := []
  FieldNames : List (String × Int) := []
  FieldValues : List ℚ := []
  Count : Int := 0
  Cursor : Int := 0
  TTL : ℚ := 0
  Err : String := ""
  Elapsed : String := ""
  Ok : Bool := false
  Live : Bool := false
  Command : String := ""
  Group : String := ""
  Detect : String := ""
  Key : String := ""
  Time : GoTime := zeroGoTime
  fields : Int := 0
deriving DecidableEq, Repr

/-- A freshly allocated `Response` (`new(t38c.Response)`). -/
def zeroResponse : Response := {}

/-- The decode failures of `UnmarshalText`: invalid JSON, the
`"unknown response value"` panic and the `"unknown field type"` panic
(both recovered into errors). -/
inductive DecodeErr where
  | invalidJSON
  | unknownField
  | unknownFieldType
deriving DecidableEq, Repr

/-- Go map assignment `m[k] = v` on the association-list model:
replace the value of an existing key in place, or append a new entry. -/
def upsert : List (String × Int) → String → Int → List (String × Int)
  | [], k, v => [(k, v)]
  | (k', v') :: rest, k, v =>
      if k' = k then (k, v) :: rest else (k', v') :: upsert rest k v

/-- `int64(f)` on a finite `float64`: truncation toward zero. -/
def ratTrunc (q : ℚ) : Int := Int.tdiv q.num q.den

/-- The array branch of `Response.parsefields`: each element's string
content is assigned the next value of the running counter. -/
def fieldsArr : Response → List GVal → Response
  | r, [] => r
  | r, x :: rest =>
      fieldsArr
        { r with FieldNames := upsert r.FieldNames x.str r.fields,
                 fields := r.fields + 1 } rest

/-- The object branch of `Response.parsefields`: each member name is
assigned the next counter value and the member's numeric value is
appended to `FieldValues`. -/
def fieldsObj : Response → List (String × GVal) → Response
  | r, [] => r
  | r, (k, x) :: rest =>
      fieldsObj
        { r with FieldNames := upsert r.FieldNames k r.fields,
                 fields := r.fields + 1,
                 FieldValues := r.FieldValues ++ [x.num] } rest

/-- `Response.parsefields`: rebuild `FieldNames` as a fresh map, then
dispatch on the shape of the value; any shape other than array or
object panics with `"unknown field type"`. -/
def parsefields (r : Response) (v : GVal) : Response × Option DecodeErr :=
  let r0 := { r with FieldNames := [] }
  match v with
  | .garr _ xs => (fieldsArr r0 xs, none)
  | .gobj _ ms => (fieldsObj r0 ms, none)
  | _ => (r0, some .unknownFieldType)

/-- One iteration of `Response.parse`: the switch over the member name
(`k.Str`).  An unmatched name panics with `"unknown response value"`,
leaving the response untouched. -/
def parseStep (r : Response) (k : String) (v : GVal) : Response × Option DecodeErr :=
  if k = "ok" then ({ r with Ok := v.toBool }, none)
  else if k = "id" then ({ r with ID := v.str }, none)
  else if k = "object" then
    ({ r with Object := if v.isJsonKind then v.raw else v.str }, none)
  else if k = "ids" then
    ({ r with IDs := r.IDs ++ (forEachVals v).map GVal.str }, none)
  else if k = "objects" then
    ({ r with Objects := r.Objects ++ (forEachVals v).map GVal.raw }, none)
  else if k = "fields" then parsefields r v
  else if k = "count" then ({ r with Count := ratTrunc v.num }, none)
  else if k = "cursor" then ({ r with Cursor := ratTrunc v.num }, none)
  else if k = "ttl" then ({ r with TTL := v.num }, none)
  else if k = "err" then ({ r with Err := v.str }, none)
  else if k = "elapsed" then ({ r with Elapsed := v.str }, none)
  else if k = "live" then ({ r with Live := v.toBool }, none)
  else if k = "command" then ({ r with Command := v.str }, none)
  else if k = "group" then ({ r with Group := v.str }, none)
  else if k = "detect" then ({ r with Detect := v.str }, none)
  else if k = "key" then ({ r with Key := v.str }, none)
  else if k = "time" then
    ({ r with Time := (parseRFC3339Nano v.str).getD zeroGoTime }, none)
  else (r, some .unknownField)

/-- `gjson.ForEach(r.parse)` over the top-level members: iterate in
document order, stopping at the first panic with the state reached so
far. -/
def parseList : Response → List (String × GVal) → Response × Option DecodeErr
  | r, [] => (r, none)
  | r, (k, v) :: rest =>
      match parseStep r k v with
      | (r', none) => parseList r' rest
      | (r', some e) => (r', some e)

/-- Input to `UnmarshalText`: either bytes rejected by
`gjson.ValidBytes`, or a syntactically valid document parsed into a
value tree. -/
inductive Input where
  | invalid
  | valid (v : GVal)

/-- `Response.UnmarshalText`, as a transformer of the receiver: reject
invalid JSON, otherwise iterate `parse` over the top-level members,
recovering a panic as an error and leaving the partially updated
receiver in place. -/
def unmarshalText (r : Response) : Input → Response × Option DecodeErr
  | .invalid => (r, some .invalidJSON)
  | .valid v => parseList r (forEachKV v)

/-- The recognized top-level member names of `Response.parse`. -/
def recognizedKey (k : String) : Bool :=
  k == "ok" || k == "id" || k == "object" || k == "ids" || k == "objects" ||
  k == "fields" || k == "count" || k == "cursor" || k == "ttl" || k == "err" ||
  k == "elapsed" || k == "live" || k == "command" || k == "group" ||
  k == "detect" || k == "key" || k == "time"

/-- Shapes accepted by `parsefields`. -/
def fieldsShapeOK : GVal → Bool
  | .garr _ _ => true
  | .gobj _ _ => true
  | _ => false

/-- A top-level member that decodes without failing: its name is
recognized and, if it is `fields`, its value is an array or an object. -/
def goodPair (p : String × GVal) : Bool :=
  recognizedKey p.1 && (p.1 != "fields" || fieldsShapeOK p.2)

/-- The dense index list `[(s₀, n), (s₁, n+1), …]`. -/
def idxFrom : Int → List String → List (String × Int)
  | _, [] => []
  | n, s :: rest => (s, n) :: idxFrom (n + 1) rest

/-! ## Errors (`error.go`) and the database facade (`db.go`)

Go errors are modelled by their construction: `newError(nil, m)` is a
base message, `newError(w, m)` wraps `w` under `m` and renders as
`m ++ ": " ++ w.Error()`, and `fmt.Errorf("%w: %s", e, s)` renders as
`e.Error() ++ ": " ++ s`. -/

inductive GoErr where
  | base (msg : String)
  | wrap (msg : String) (werr : GoErr)
  | wrapf (werr : GoErr) (s : String)
deriving DecidableEq, Repr

/-- `Error()` on the modelled error values. -/
def GoErr.render : GoErr → String
  | .base m => m
  | .wrap m w => m ++ ": " ++ w.render
  | .wrapf w s => w.render ++ ": " ++ s

/-- `errUninitialized = newError(nil, "database not initialized")`. -/
def errUninitialized : GoErr := .base "database not initialized"

/-- `errResponse = newError(nil, "received error")`. -/
def errResponse : GoErr := .base "received error"

/-- `errArgs = newError(nil, "invalid arguments")`. -/
def errArgs : GoErr := .base "invalid arguments"

/-- The error value `UnmarshalText` returns for each failure:
`newError(nil, "error unmarshaling response: not valid JSON")` for
invalid JSON, and `newErrorf(nil, "error unmarshaling response: %s", s)`
for a recovered panic string `s`. -/
def decodeErrToGo : DecodeErr → GoErr
  | .invalidJSON => .base "error unmarshaling response: not valid JSON"
  | .unknownField => .base "error unmarshaling response: unknown response value"
  | .unknownFieldType => .base "error unmarshaling response: unknown field type"

/-- What one pooled request produces: a transport-level error, or one
complete reply frame handed to `Response.UnmarshalText`. -/
inductive NetReply where
  | err (msg : String)
  | frame (inp : Input)

/-- The connection pool as seen by `db.go`: `send` models
`pool.Do(radix.Cmd(r, cmd, args...))` up to the point where the reply
frame is unmarshaled, and `closeErr` models the result of
`pool.Close()`. -/
structure Pool where
  send : String → List String → NetReply
  closeErr : Option String

/-- `pool.Do(radix.Cmd(r, cmd, args...))`: a transport failure is
returned as-is; otherwise the reply frame is unmarshaled into a fresh
`Response`, yielding either the decode error or the populated value. -/
def poolDo (p : Pool) (cmd : String) (args : List String) : Except GoErr Response :=
  match p.send cmd args with
  | .err m => .error (.base m)
  | .frame inp =>
      match unmarshalText zeroResponse inp with
      | (r, none) => .ok r
      | (_, some de) => .error (decodeErrToGo de)

/-- A `Database` handle: `Connect` fills in the pool; the zero value
has a nil pool. -/
def Database := Option Pool

/-- The request log of an operation: the `(command, arguments)` frames
actually sent to the pool.  An operation that fails before touching the
network has an empty log. -/
abbrev NetLog := List (String × List String)

/-- Go variadic `...string` arguments: `none` models a nil slice (the
zero-argument call), `some as` a non-nil slice. -/
abbrev VarArgs := Option (List String)

/-- `Database.runcmd`: reject a nil argument slice before any network
access, otherwise issue the command once; a pool/decode failure is
wrapped as `"database error"`, a decoded reply with `Ok=false` becomes
the domain error `received error: <Err>`. -/
def runcmd (p : Pool) (cmd : String) (args : VarArgs) : Except GoErr Response × NetLog :=
  match args with
  | none => (.error errArgs, [])
  | some as =>
      match poolDo p cmd as with
      | .error e => (.error (.wrap "database error" e), [(cmd, as)])
      | .ok r =>
          if r.Ok then (.ok r, [(cmd, as)])
          else (.error (.wrapf errResponse r.Err), [(cmd, as)])

/-- `Database.Set`. -/
def dbSet (db : Database) (key id : String) (args : VarArgs) :
    Except GoErr Unit × NetLog :=
  match db with
  | none => (.error errUninitialized, [])
  | some p =>
      match args with
      | none => (.error errArgs, [])
      | some as =>
          match runcmd p "SET" (some ([key, id] ++ as)) with
          | (.error e, log) => (.error e, log)
          | (.ok _, log) => (.ok (), log)

/-- The argument list `Get` builds: `cmdargs := []string{key, id}`,
extended with `args` when the variadic slice is non-nil. -/
def getArgsList (key id : String) : VarArgs → List String
  | none => [key, id]
  | some as => [key, id] ++ as

/-- The argument list `Scan` and `Search` build: `cmdargs :=
[]string{key}`, extended with `args` when the variadic slice is
non-nil. -/
def keyArgsList (key : String) : VarArgs → List String
  | none => [key]
  | some as => [key] ++ as

/-- `Database.Get`: the one facade operation with the not-found
translation — a `runcmd` error rendering exactly
`"received error: id not found"` becomes the `(nil, nil)` result. -/
def dbGet (db : Database) (key id : String) (args : VarArgs) :
    Except GoErr (Option Response) × NetLog :=
  match db with
  | none => (.error errUninitialized, [])
  | some p =>
      match runcmd p "GET" (some (getArgsList key id args)) with
      | (.error e, log) =>
          if e.render = "received error: id not found" then (.ok none, log)
          else (.error e, log)
      | (.ok r, log) => (.ok (some r), log)

/-- `Database.Scan`. -/
def dbScan (db : Database) (key : String) (args : VarArgs) :
    Except GoErr Response × NetLog :=
  match db with
  | none => (.error errUninitialized, [])
  | some p => runcmd p "SCAN" (some (keyArgsList key args))

/-- `Database.Search`. -/
def dbSearch (db : Database) (key : String) (args : VarArgs) :
    Except GoErr Response × NetLog :=
  match db with
  | none => (.error errUninitialized, [])
  | some p => runcmd p "SEARCH" (some (keyArgsList key args))

/-- `Database.Del`. -/
def dbDel (db : Database) (key id : String) : Except GoErr Unit × NetLog :=
  match db with
  | none => (.error errUninitialized, [])
  | some p =>
      match runcmd p "DEL" (some [key, id]) with
      | (.error e, log) => (.error e, log)
      | (.ok _, log) => (.ok (), log)

/-- `Database.PDel`. -/
def dbPDel (db : Database) (key pattern : String) : Except GoErr Unit × NetLog :=
  match db with
  | none => (.error errUninitialized, [])
  | some p =>
      match runcmd p "PDEL" (some [key, pattern]) with
      | (.error e, log) => (.error e, log)
      | (.ok _, log) => (.ok (), log)

/-- `Database.Expire` (`strconv.Itoa(seconds)` is decimal rendering). -/
def dbExpire (db : Database) (key id : String) (seconds : Int) :
    Except GoErr Unit × NetLog :=
  match db with
  | none => (.error errUninitialized, [])
  | some p =>
      match runcmd p "EXPIRE" (some [key, id, toString seconds]) with
      | (.error e, log) => (.error e, log)
      | (.ok _, log) => (.ok (), log)

/-- `Database.Persist`. -/
def dbPersist (db : Database) (key id : String) : Except GoErr Unit × NetLog :=
  match db with
  | none => (.error errUninitialized, [])
  | some p =>
      match runcmd p "PERSIST" (some [key, id]) with
      | (.error e, log) => (.error e, log)
      | (.ok _, log) => (.ok (), log)

/-- `Database.TTL`. -/
def dbTTL (db : Database) (key id : String) : Except GoErr ℚ × NetLog :=
  match db with
  | none => (.error errUninitialized, [])
  | some p =>
      match runcmd p "TTL" (some [key, id]) with
      | (.error e, log) => (.error e, log)
      | (.ok r, log) => (.ok r.TTL, log)

/-- `Database.Close`: a nil pool is rejected; otherwise the pool is
closed, a failure being wrapped as
`"error closing database connection"`. -/
def dbClose (db : Database) : Except GoErr Unit × NetLog :=
  match db with
  | none => (.error errUninitialized, [])
  | some p =>
      match p.closeErr with
      | none => (.ok (), [])
      | some m => (.error (.wrap "error closing database connection" (.base m)), [])

/-- A pool whose every command is answered by the server reply
`{"ok":false,"err":"id not found"}`. -/
def notFoundPool : Pool :=
  ⟨fun _ _ => .frame (.valid (.gobj "\x7b\"ok\":false,\"err\":\"id not found\"\x7d"
      [("ok", .gfalse), ("err", .gstr "id not found")])), none⟩

/-- A pool whose every command is answered by the server reply
`{"ok":false,"err":"bad request"}`. -/
def badRequestPool : Pool :=
  ⟨fun _ _ => .frame (.valid (.gobj "\x7b\"ok\":false,\"err\":\"bad request\"\x7d"
      [("ok", .gfalse), ("err", .gstr "bad request")])), none⟩

/-! ## Decoder lemmas -/

/-- The map built by the array branch of `parsefields`, starting from
map `m` and counter `n`. -/
def arrNames : List (String × Int) → Int → List GVal → List (String × Int)
  | m, _, [] => m
  | m, n, x :: rest => arrNames (upsert m x.str n) (n + 1) rest

/-- The map built by the object branch of `parsefields`. -/
def objNames : List (String × Int) → Int → List (String × GVal) → List (String × Int)
  | m, _, [] => m
  | m, n, (k, _) :: rest => objNames (upsert m k n) (n + 1) rest

theorem fieldsArr_eq (xs : List GVal) (r : Response) :
    fieldsArr r xs = { r with FieldNames := arrNames r.FieldNames r.fields xs,
                              fields := r.fields + xs.length } := by
  induction xs generalizing r with
  | nil => simp [fieldsArr, arrNames]
  | cons x rest ih =>
      simp only [fieldsArr, ih, arrNames, List.length_cons]
      congr 1
      push_cast
      ring

theorem fieldsObj_eq (ms : List (String × GVal)) (r : Response) :
    fieldsObj r ms = { r with FieldNames := objNames r.FieldNames r.fields ms,
                              fields := r.fields + ms.length,
                              FieldValues := r.FieldValues ++ ms.map fun p => p.2.num } := by
  induction ms generalizing r with
  | nil => simp [fieldsObj, objNames]
  | cons p rest ih =>
      obtain ⟨k, x⟩ := p
      simp only [fieldsObj, ih, objNames, List.length_cons, List.map_cons]
      congr 1
      · simp
      · push_cast
        ring

theorem upsert_notMem (m : List (String × Int)) (k : String) (v : Int)
    (h : k ∉ m.map Prod.fst) : upsert m k v = m ++ [(k, v)] := by
  induction m with
  | nil => rfl
  | cons p rest ih =>
      obtain ⟨k', v'⟩ := p
      simp only [List.map_cons, List.mem_cons] at h
      push_neg at h
      simp only [upsert, List.cons_append]
      rw [if_neg (Ne.symm h.1), ih h.2]

theorem idxFrom_length (n : Int) (l : List String) :
    (idxFrom n l).length = l.length := by
  induction l generalizing n with
  | nil => rfl
  | cons s rest ih => simp [idxFrom, ih]

theorem arrNames_of_nodup (xs : List GVal) :
    ∀ (m : List (String × Int)) (n : Int),
      (xs.map GVal.str).Nodup → (∀ s ∈ xs.map GVal.str, s ∉ m.map Prod.fst) →
      arrNames m n xs = m ++ idxFrom n (xs.map GVal.str) := by
  induction xs with
  | nil => intro m n _ _; simp [arrNames, idxFrom]
  | cons x rest ih =>
      intro m n hnd hdisj
      simp only [List.map_cons, List.nodup_cons] at hnd
      simp only [arrNames]
      rw [upsert_notMem m x.str n (hdisj _ (by simp)), ih (m ++ [(x.str, n)]) (n + 1) hnd.2 ?_]
      · simp [idxFrom, List.map_cons]
      · intro s hs
        simp only [List.map_append, List.mem_append, List.map_cons, List.map_nil,
          List.mem_singleton]
        rintro (hm | hx)
        · exact hdisj s (by simp [hs]) hm
        · exact hnd.1 (hx ▸ hs)

theorem objNames_of_nodup (ms : List (String × GVal)) :
    ∀ (m : List (String × Int)) (n : Int),
      (ms.map Prod.fst).Nodup → (∀ s ∈ ms.map Prod.fst, s ∉ m.map Prod.fst) →
      objNames m n ms = m ++ idxFrom n (ms.map Prod.fst) := by
  induction ms with
  | nil => intro m n _ _; simp [objNames, idxFrom]
  | cons p rest ih =>
      obtain ⟨k, x⟩ := p
      intro m n hnd hdisj
      simp only [List.map_cons, List.nodup_cons] at hnd
      simp only [objNames]
      rw [upsert_notMem m k n (hdisj _ (by simp)), ih (m ++ [(k, n)]) (n + 1) hnd.2 ?_]
      · simp [idxFrom, List.map_cons]
      · intro s hs
        simp only [List.map_append, List.mem_append, List.map_cons, List.map_nil,
          List.mem_singleton]
        rintro (hm | hx)
        · exact hdisj s (by simp [hs]) hm
        · exact hnd.1 (hx ▸ hs)

theorem parsefields_badshape (r : Response) (v : GVal) (h : fieldsShapeOK v = false) :
    parsefields r v = ({ r with FieldNames := [] }, some .unknownFieldType) := by
  cases v with
  | gnull => rfl
  | gtrue => rfl
  | gfalse => rfl
  | gnum raw n => rfl
  | gstr s => rfl
  | garr raw xs => exact absurd h (by simp [fieldsShapeOK])
  | gobj raw ms => exact absurd h (by simp [fieldsShapeOK])

theorem recognizedKey_cases (k : String) (h : recognizedKey k = true) :
    k = "ok" ∨ k = "id" ∨ k = "object" ∨ k = "ids" ∨ k = "objects" ∨ k = "fields" ∨
    k = "count" ∨ k = "cursor" ∨ k = "ttl" ∨ k = "err" ∨ k = "elapsed" ∨ k = "live" ∨
    k = "command" ∨ k = "group" ∨ k = "detect" ∨ k = "key" ∨ k = "time" := by
  simp only [recognizedKey, Bool.or_eq_true, beq_iff_eq] at h
  tauto

theorem parseStep_unknown (r : Response) (k : String) (v : GVal)
    (h : recognizedKey k = false) : parseStep r k v = (r, some .unknownField) := by
  simp only [recognizedKey, Bool.or_eq_false_iff, beq_eq_false_iff_ne] at h
  obtain ⟨⟨⟨⟨⟨⟨⟨⟨⟨⟨⟨⟨⟨⟨⟨⟨h1, h2⟩, h3⟩, h4⟩, h5⟩, h6⟩, h7⟩, h8⟩, h9⟩, h10⟩, h11⟩, h12⟩,
    h13⟩, h14⟩, h15⟩, h16⟩, h17⟩ := h
  simp [parseStep, h1, h2, h3, h4, h5, h6, h7, h8, h9, h10, h11, h12, h13, h14, h15,
    h16, h17]

theorem parseStep_good_spec (r : Response) (k : String) (v : GVal)
    (h : goodPair (k, v) = true) :
    (parseStep r k v).2 = none ∧
    (k ≠ "fields" → (parseStep r k v).1.FieldNames = r.FieldNames ∧
      (parseStep r k v).1.fields = r.fields ∧
      (parseStep r k v).1.FieldValues = r.FieldValues) ∧
    (k ≠ "object" → (parseStep r k v).1.Object = r.Object) ∧
    (k ≠ "time" → (parseStep r k v).1.Time = r.Time) := by
  simp only [goodPair, Bool.and_eq_true] at h
  obtain ⟨hrec, hsh⟩ := h
  rcases recognizedKey_cases k hrec with
    rfl | rfl | rfl | rfl | rfl | rfl | rfl | rfl | rfl | rfl | rfl | rfl | rfl | rfl |
    rfl | rfl | rfl
  · exact ⟨rfl, fun _ => ⟨rfl, rfl, rfl⟩, fun _ => rfl, fun _ => rfl⟩
  · exact ⟨rfl, fun _ => ⟨rfl, rfl, rfl⟩, fun _ => rfl, fun _ => rfl⟩
  · exact ⟨rfl, fun _ => ⟨rfl, rfl, rfl⟩, fun ho => absurd rfl ho, fun _ => rfl⟩
  · exact ⟨rfl, fun _ => ⟨rfl, rfl, rfl⟩, fun _ => rfl, fun _ => rfl⟩
  · exact ⟨rfl, fun _ => ⟨rfl, rfl, rfl⟩, fun _ => rfl, fun _ => rfl⟩
  · have hshape : fieldsShapeOK v = true := by simpa using hsh
    cases v with
    | gnull => exact absurd hshape Bool.false_ne_true
    | gtrue => exact absurd hshape Bool.false_ne_true
    | gfalse => exact absurd hshape Bool.false_ne_true
    | gnum raw n => exact absurd hshape Bool.false_ne_true
    | gstr s => exact absurd hshape Bool.false_ne_true
    | garr raw xs =>
        refine ⟨rfl, fun hk => absurd rfl hk, fun _ => ?_, fun _ => ?_⟩
        · show (fieldsArr { r with FieldNames := [] } xs).Object = r.Object
          rw [fieldsArr_eq]
        · show (fieldsArr { r with FieldNames := [] } xs).Time = r.Time
          rw [fieldsArr_eq]
    | gobj raw ms =>
        refine ⟨rfl, fun hk => absurd rfl hk, fun _ => ?_, fun _ => ?_⟩
        · show (fieldsObj { r with FieldNames := [] } ms).Object = r.Object
          rw [fieldsObj_eq]
        · show (fieldsObj { r with FieldNames := [] } ms).Time = r.Time
          rw [fieldsObj_eq]
  · exact ⟨rfl, fun _ => ⟨rfl, rfl, rfl⟩, fun _ => rfl, fun _ => rfl⟩
  · exact ⟨rfl, fun _ => ⟨rfl, rfl, rfl⟩, fun _ => rfl, fun _ => rfl⟩
  · exact ⟨rfl, fun _ => ⟨rfl, rfl, rfl⟩, fun _ => rfl, fun _ => rfl⟩
  · exact ⟨rfl, fun _ => ⟨rfl, rfl, rfl⟩, fun _ => rfl, fun _ => rfl⟩
  · exact ⟨rfl, fun _ => ⟨rfl, rfl, rfl⟩, fun _ => rfl, fun _ => rfl⟩
  · exact ⟨rfl, fun _ => ⟨rfl, rfl, rfl⟩, fun _ => rfl, fun _ => rfl⟩
  · exact ⟨rfl, fun _ => ⟨rfl, rfl, rfl⟩, fun _ => rfl, fun _ => rfl⟩
  · exact ⟨rfl, fun _ => ⟨rfl, rfl, rfl⟩, fun _ => rfl, fun _ => rfl⟩
  · exact ⟨rfl, fun _ => ⟨rfl, rfl, rfl⟩, fun _ => rfl, fun _ => rfl⟩
  · exact ⟨rfl, fun _ => ⟨rfl, rfl, rfl⟩, fun _ => rfl, fun _ => rfl⟩
  · exact ⟨rfl, fun _ => ⟨rfl, rfl, rfl⟩, fun _ => rfl, fun ht => absurd rfl ht⟩

theorem parseList_append (l1 l2 : List (String × GVal)) (r : Response) :
    parseList r (l1 ++ l2) =
      match parseList r l1 with
      | (r', none) => parseList r' l2
      | (r', some e) => (r', some e) := by
  induction l1 generalizing r with
  | nil => rfl
  | cons p rest ih =>
      obtain ⟨k, v⟩ := p
      cases hps : parseStep r k v with
      | mk r' e =>
          cases e with
          | none =>
              simp only [List.cons_append, parseList, hps]
              exact ih r'
          | some d => simp only [List.cons_append, parseList, hps]

theorem parseList_frame (l : List (String × GVal)) (r : Response)
    (h : ∀ p ∈ l, goodPair p = true) :
    (parseList r l).2 = none ∧
    ((∀ p ∈ l, p.1 ≠ "fields") → (parseList r l).1.FieldNames = r.FieldNames ∧
      (parseList r l).1.fields = r.fields ∧
      (parseList r l).1.FieldValues = r.FieldValues) ∧
    ((∀ p ∈ l, p.1 ≠ "object") → (parseList r l).1.Object = r.Object) ∧
    ((∀ p ∈ l, p.1 ≠ "time") → (parseList r l).1.Time = r.Time) := by
  induction l generalizing r with
  | nil => exact ⟨rfl, fun _ => ⟨rfl, rfl, rfl⟩, fun _ => rfl, fun _ => rfl⟩
  | cons p rest ih =>
      obtain ⟨k, v⟩ := p
      obtain ⟨h2, hflds, hobj, htime⟩ := parseStep_good_spec r k v (h (k, v) (by simp))
      cases hps : parseStep r k v with
      | mk r' e =>
          rw [hps] at h2 hflds hobj htime
          cases e with
          | some d => simp at h2
          | none =>
              have hrest := ih r' (fun q hq => h q (by simp [hq]))
              have heq : parseList r ((k, v) :: rest) = parseList r' rest := by
                simp only [parseList, hps]
              rw [heq]
              refine ⟨hrest.1, fun hnf => ?_, fun hno => ?_, fun hnt => ?_⟩
              · have h1 := hflds (hnf (k, v) (by simp))
                have h2' := hrest.2.1 (fun q hq => hnf q (by simp [hq]))
                exact ⟨h2'.1.trans h1.1, h2'.2.1.trans h1.2.1, h2'.2.2.trans h1.2.2⟩
              · exact (hrest.2.2.1 (fun q hq => hno q (by simp [hq]))).trans
                  (hobj (hno (k, v) (by simp)))
              · exact (hrest.2.2.2 (fun q hq => hnt q (by simp [hq]))).trans
                  (htime (hnt (k, v) (by simp)))

theorem parseList_find (l : List (String × GVal)) (r : Response) :
    (parseList r l).2 = (l.find? fun p => !goodPair p).map
      (fun p => if recognizedKey p.1 then DecodeErr.unknownFieldType
                else DecodeErr.unknownField) := by
  induction l generalizing r with
  | nil => rfl
  | cons p rest ih =>
      obtain ⟨k, v⟩ := p
      by_cases hgp : goodPair (k, v) = true
      · have hstep := (parseStep_good_spec r k v hgp).1
        cases hps : parseStep r k v with
        | mk r' e =>
            rw [hps] at hstep
            cases e with
            | some d => simp at hstep
            | none =>
                have heq : parseList r ((k, v) :: rest) = parseList r' rest := by
                  simp only [parseList, hps]
                rw [heq, ih r', List.find?_cons_of_neg _ (by simp [hgp])]
      · have hgp' : goodPair (k, v) = false := by
          cases hb : goodPair (k, v)
          · rfl
          · exact absurd hb hgp
        by_cases hrec : recognizedKey k = true
        · have hkv : k = "fields" ∧ fieldsShapeOK v = false := by
            simpa [goodPair, hrec] using hgp'
          obtain ⟨rfl, hshape⟩ := hkv
          have heq : parseList r (("fields", v) :: rest) =
              ({ r with FieldNames := [] }, some .unknownFieldType) := by
            simp only [parseList,
              show parseStep r "fields" v = parsefields r v from rfl,
              parsefields_badshape r v hshape]
          rw [heq, List.find?_cons_of_pos _ (by simp [hgp'])]
          simp [hrec]
        · have hrecf : recognizedKey k = false := by
            cases hb : recognizedKey k
            · rfl
            · exact absurd hb hrec
          have heq : parseList r ((k, v) :: rest) = (r, some .unknownField) := by
            simp only [parseList, parseStep_unknown r k v hrecf]
          rw [heq, List.find?_cons_of_pos _ (by simp [hgp'])]
          simp [hrecf]

theorem arrNames_nil (xs : List GVal) (n : Int) (hnd : (xs.map GVal.str).Nodup) :
    arrNames [] n xs = idxFrom n (xs.map GVal.str) := by
  rw [arrNames_of_nodup xs [] n hnd (by simp)]
  simp

theorem objNames_nil (ms : List (String × GVal)) (n : Int) (hnd : (ms.map Prod.fst).Nodup) :
    objNames [] n ms = idxFrom n (ms.map Prod.fst) := by
  rw [objNames_of_nodup ms [] n hnd (by simp)]
  simp

theorem string_append_cancel (a b c : String) (h : a ++ b = a ++ c) : b = c := by
  have hd := congrArg String.data h
  simp only [String.data_append] at hd
  exact String.ext (List.append_cancel_left hd)

/-- The domain error `runcmd` raises for `Ok=false` renders as
`"received error: id not found"` exactly when the server message is
`"id not found"`. -/
theorem received_error_render_iff (e : String) :
    (GoErr.wrapf errResponse e).render = "received error: id not found" ↔
      e = "id not found" := by
  constructor
  · intro h
    have h' : ("received error" ++ ": ") ++ e =
        ("received error" ++ ": ") ++ "id not found" := by
      have hlit : ("received error" ++ ": ") ++ "id not found" =
          "received error: id not found" := by decide
      rw [hlit]
      exact h
    exact string_append_cancel _ _ _ h'
  · rintro rfl
    decide

/-! ## The claims -/

/-- C1, counterexample: decoding `{"object":123}` leaves `Object` equal
to the empty string, not to the raw JSON text `"123"` of the numeric
value, because the decoder copies the (empty) gjson `Str` field for
every non-`JSON`-typed value.  This refutes the claim that numbers,
booleans and null store their raw text verbatim. -/
theorem c1_object_counterexample :
    (unmarshalText zeroResponse (.valid (.gobj "\x7b\"object\":123\x7d"
        [("object", .gnum "123" 123)]))).1.Object = "" ∧
    (GVal.gnum "123" 123).raw = "123" ∧ ("" : String) ≠ "123" :=
  ⟨rfl, rfl, by decide⟩

/-- C1, amended: for every successful decode of a reply with an
`object` key, `Object` equals the value's raw JSON text when the value
is an object or an array (gjson type `JSON`), the unquoted string
content when it is a quoted string, and the empty string when it is a
number, boolean or null (whose gjson `Str` field is empty). -/
theorem c1_object_amended (raw : String) (pre : List (String × GVal)) (v : GVal)
    (post : List (String × GVal))
    (hpre : ∀ p ∈ pre, goodPair p = true)
    (hpost : ∀ p ∈ post, goodPair p = true ∧ p.1 ≠ "object") :
    (unmarshalText zeroResponse
        (.valid (.gobj raw (pre ++ ("object", v) :: post)))).2 = none ∧
    (unmarshalText zeroResponse
        (.valid (.gobj raw (pre ++ ("object", v) :: post)))).1.Object =
      (match v with
       | .gobj vraw _ => vraw
       | .garr vraw _ => vraw
       | .gstr s => s
       | _ => "") := by
  cases hp : parseList zeroResponse pre with
  | mk r1 e =>
      have h1 := (parseList_frame pre zeroResponse hpre).1
      rw [hp] at h1
      cases e with
      | some d => simp at h1
      | none =>
          have key : parseList zeroResponse (pre ++ ("object", v) :: post) =
              parseList { r1 with Object := if v.isJsonKind then v.raw else v.str }
                post := by
            rw [parseList_append, hp]
            rfl
          obtain ⟨herr, -, hobj, -⟩ :=
            parseList_frame post
              { r1 with Object := if v.isJsonKind then v.raw else v.str }
              (fun p hp => (hpost p hp).1)
          constructor
          · show (parseList zeroResponse (pre ++ ("object", v) :: post)).2 = none
            rw [key]
            exact herr
          · show (parseList zeroResponse (pre ++ ("object", v) :: post)).1.Object = _
            rw [key, hobj (fun p hp => (hpost p hp).2)]
            show (if v.isJsonKind then v.raw else v.str) = _
            cases v <;> rfl

/-- C1 witness: the amended statement evaluated at a structured value
(`Object` gets its raw text) and at a quoted string (`Object` gets the
content). -/
theorem c1_object_amended_witness :
    (unmarshalText zeroResponse (.valid (.gobj "d1"
        [("ok", .gtrue), ("object", .gobj "\x7b\"a\":1\x7d" [("a", .gnum "1" 1)]),
         ("ttl", .gnum "500" 500)]))).1.Object = "\x7b\"a\":1\x7d" ∧
    (unmarshalText zeroResponse
        (.valid (.gobj "d2" [("object", .gstr "objstr")]))).1.Object = "objstr" :=
  ⟨(c1_object_amended "d1" [("ok", .gtrue)] (.gobj "\x7b\"a\":1\x7d" [("a", .gnum "1" 1)])
      [("ttl", .gnum "500" 500)] (by decide) (by decide)).2,
   (c1_object_amended "d2" [] (.gstr "objstr") [] (by decide) (by decide)).2⟩

/-- C2, counterexample: the fields array `["a","a"]` has two names, but
the decode produces a one-entry map `FieldNames = [("a", 1)]` — the
duplicate name is assigned the later index, so the map has fewer than N
entries and its index values are not the dense range 0..N-1. -/
theorem c2_fields_array_counterexample :
    (unmarshalText zeroResponse (.valid (.gobj "\x7b\"fields\":[\"a\",\"a\"]\x7d"
        [("fields", .garr "[\"a\",\"a\"]" [.gstr "a", .gstr "a"])]))).1.FieldNames =
      [("a", 1)] ∧
    [GVal.gstr "a", .gstr "a"].length = 2 ∧
    (unmarshalText zeroResponse (.valid (.gobj "\x7b\"fields\":[\"a\",\"a\"]\x7d"
        [("fields", .garr "[\"a\",\"a\"]" [.gstr "a", .gstr "a"])]))).1.FieldNames.length ≠
      2 := by
  refine ⟨rfl, rfl, by decide⟩

/-- C2, amended: for every decode of a reply whose `fields` key holds a
JSON array of N distinct names, `FieldNames` has N entries whose index
values form the dense range 0..N-1 assigned in array order, and
`FieldValues` is empty. -/
theorem c2_fields_array_amended (raw araw : String) (pre post : List (String × GVal))
    (xs : List GVal)
    (hpre : ∀ p ∈ pre, goodPair p = true ∧ p.1 ≠ "fields")
    (hpost : ∀ p ∈ post, goodPair p = true ∧ p.1 ≠ "fields")
    (hnd : (xs.map GVal.str).Nodup) :
    (unmarshalText zeroResponse
        (.valid (.gobj raw (pre ++ ("fields", .garr araw xs) :: post)))).2 = none ∧
    (unmarshalText zeroResponse
        (.valid (.gobj raw (pre ++ ("fields", .garr araw xs) :: post)))).1.FieldNames =
      idxFrom 0 (xs.map GVal.str) ∧
    (unmarshalText zeroResponse
        (.valid (.gobj raw
          (pre ++ ("fields", .garr araw xs) :: post)))).1.FieldNames.length =
      xs.length ∧
    (unmarshalText zeroResponse
        (.valid (.gobj raw (pre ++ ("fields", .garr araw xs) :: post)))).1.FieldValues =
      [] := by
  cases hp : parseList zeroResponse pre with
  | mk r1 e =>
      obtain ⟨h1, hfr, -, -⟩ := parseList_frame pre zeroResponse (fun p hp => (hpre p hp).1)
      rw [hp] at h1 hfr
      cases e with
      | some d => simp at h1
      | none =>
          have hfr' := hfr (fun p hp => (hpre p hp).2)
          have hc1 : r1.fields = 0 := hfr'.2.1
          have hv1 : r1.FieldValues = [] := hfr'.2.2
          have hstep : parseStep r1 "fields" (.garr araw xs) =
              ({ r1 with FieldNames := arrNames [] r1.fields xs,
                         fields := r1.fields + xs.length }, none) := by
            show (fieldsArr { r1 with FieldNames := [] } xs, none) = _
            rw [fieldsArr_eq]
          have key : parseList zeroResponse (pre ++ ("fields", .garr araw xs) :: post) =
              parseList { r1 with FieldNames := arrNames [] r1.fields xs,
                                  fields := r1.fields + xs.length } post := by
            rw [parseList_append, hp]
            show parseList r1 (("fields", .garr araw xs) :: post) = _
            simp only [parseList, hstep]
          obtain ⟨herr, hfr2, -, -⟩ := parseList_frame post _ (fun p hp => (hpost p hp).1)
          have hfr2' := hfr2 (fun p hp => (hpost p hp).2)
          have hnames : (parseList zeroResponse
              (pre ++ ("fields", .garr araw xs) :: post)).1.FieldNames =
              idxFrom 0 (xs.map GVal.str) := by
            rw [key, hfr2'.1]
            show arrNames [] r1.fields xs = _
            rw [hc1]
            exact arrNames_nil xs 0 hnd
          refine ⟨?_, hnames, ?_, ?_⟩
          · show (parseList zeroResponse (pre ++ ("fields", .garr araw xs) :: post)).2 =
              none
            rw [key]
            exact herr
          · show (parseList zeroResponse
                (pre ++ ("fields", .garr araw xs) :: post)).1.FieldNames.length = xs.length
            rw [hnames, idxFrom_length, List.length_map]
          · show (parseList zeroResponse
                (pre ++ ("fields", .garr araw xs) :: post)).1.FieldValues = []
            rw [key, hfr2'.2.2]
            exact hv1

/-- C2 witness: a two-name fields array decodes to indices 0 and 1 in
array order with empty `FieldValues`. -/
theorem c2_fields_array_amended_witness :
    (unmarshalText zeroResponse (.valid (.gobj "d"
        [("ok", .gtrue), ("fields", .garr "[\"fZ\",\"fY\"]" [.gstr "fZ", .gstr "fY"]),
         ("count", .gnum "2" 2)]))).1.FieldNames = [("fZ", 0), ("fY", 1)] ∧
    (unmarshalText zeroResponse (.valid (.gobj "d"
        [("ok", .gtrue), ("fields", .garr "[\"fZ\",\"fY\"]" [.gstr "fZ", .gstr "fY"]),
         ("count", .gnum "2" 2)]))).1.FieldValues = [] :=
  ⟨(c2_fields_array_amended "d" "[\"fZ\",\"fY\"]" [("ok", .gtrue)] [("count", .gnum "2" 2)]
      [.gstr "fZ", .gstr "fY"] (by decide) (by decide) (by decide)).2.1,
   (c2_fields_array_amended "d" "[\"fZ\",\"fY\"]" [("ok", .gtrue)] [("count", .gnum "2" 2)]
      [.gstr "fZ", .gstr "fY"] (by decide) (by decide) (by decide)).2.2.2⟩

/-- C3, counterexample: the fields object `{"a":1,"a":2}` has two
name-number pairs (duplicate keys are legal JSON and gjson iterates
both), but the decode produces the one-entry map `[("a", 1)]` while
`FieldValues` gets both numbers — so `FieldNames` does not have N
entries and the name `a` (index 1) is paired with `FieldValues[1] = 2`,
not with the value 1 recorded under its index assignment. -/
theorem c3_fields_object_counterexample :
    (unmarshalText zeroResponse (.valid (.gobj "\x7b\"fields\":\x7b\"a\":1,\"a\":2\x7d\x7d"
        [("fields", .gobj "\x7b\"a\":1,\"a\":2\x7d"
          [("a", .gnum "1" 1), ("a", .gnum "2" 2)])]))).1.FieldNames = [("a", 1)] ∧
    (unmarshalText zeroResponse (.valid (.gobj "\x7b\"fields\":\x7b\"a\":1,\"a\":2\x7d\x7d"
        [("fields", .gobj "\x7b\"a\":1,\"a\":2\x7d"
          [("a", .gnum "1" 1), ("a", .gnum "2" 2)])]))).1.FieldValues = [1, 2] ∧
    [("a", GVal.gnum "1" 1), ("a", .gnum "2" 2)].length = 2 ∧
    (unmarshalText zeroResponse (.valid (.gobj "\x7b\"fields\":\x7b\"a\":1,\"a\":2\x7d\x7d"
        [("fields", .gobj "\x7b\"a\":1,\"a\":2\x7d"
          [("a", .gnum "1" 1),
           ("a", .gnum "2" 2)])]))).1.FieldNames.length ≠ 2 := by
  refine ⟨rfl, by decide, rfl, by decide⟩

/-- C3, amended: for every decode of a reply whose `fields` key holds a
JSON object of N name-to-number pairs with distinct names, `FieldNames`
has N entries indexed 0..N-1 in the object's key order, and
`FieldValues` lists the numeric values in the same order, so
`FieldValues[i]` is the value paired with the name assigned index i. -/
theorem c3_fields_object_amended (raw oraw : String) (pre post ms : List (String × GVal))
    (hpre : ∀ p ∈ pre, goodPair p = true ∧ p.1 ≠ "fields")
    (hpost : ∀ p ∈ post, goodPair p = true ∧ p.1 ≠ "fields")
    (hnd : (ms.map Prod.fst).Nodup) :
    (unmarshalText zeroResponse
        (.valid (.gobj raw (pre ++ ("fields", .gobj oraw ms) :: post)))).2 = none ∧
    (unmarshalText zeroResponse
        (.valid (.gobj raw (pre ++ ("fields", .gobj oraw ms) :: post)))).1.FieldNames =
      idxFrom 0 (ms.map Prod.fst) ∧
    (unmarshalText zeroResponse
        (.valid (.gobj raw
          (pre ++ ("fields", .gobj oraw ms) :: post)))).1.FieldNames.length =
      ms.length ∧
    (unmarshalText zeroResponse
        (.valid (.gobj raw (pre ++ ("fields", .gobj oraw ms) :: post)))).1.FieldValues =
      ms.map fun p => GVal.num p.2 := by
  cases hp : parseList zeroResponse pre with
  | mk r1 e =>
      obtain ⟨h1, hfr, -, -⟩ := parseList_frame pre zeroResponse (fun p hp => (hpre p hp).1)
      rw [hp] at h1 hfr
      cases e with
      | some d => simp at h1
      | none =>
          have hfr' := hfr (fun p hp => (hpre p hp).2)
          have hc1 : r1.fields = 0 := hfr'.2.1
          have hv1 : r1.FieldValues = [] := hfr'.2.2
          have hstep : parseStep r1 "fields" (.gobj oraw ms) =
              ({ r1 with FieldNames := objNames [] r1.fields ms,
                         fields := r1.fields + ms.length,
                         FieldValues := r1.FieldValues ++ ms.map fun p => p.2.num },
               none) := by
            show (fieldsObj { r1 with FieldNames := [] } ms, none) = _
            rw [fieldsObj_eq]
          have key : parseList zeroResponse (pre ++ ("fields", .gobj oraw ms) :: post) =
              parseList { r1 with FieldNames := objNames [] r1.fields ms,
                                  fields := r1.fields + ms.length,
                                  FieldValues := r1.FieldValues ++
                                    ms.map fun p => p.2.num } post := by
            rw [parseList_append, hp]
            show parseList r1 (("fields", .gobj oraw ms) :: post) = _
            simp only [parseList, hstep]
          obtain ⟨herr, hfr2, -, -⟩ := parseList_frame post _ (fun p hp => (hpost p hp).1)
          have hfr2' := hfr2 (fun p hp => (hpost p hp).2)
          have hnames : (parseList zeroResponse
              (pre ++ ("fields", .gobj oraw ms) :: post)).1.FieldNames =
              idxFrom 0 (ms.map Prod.fst) := by
            rw [key, hfr2'.1]
            show objNames [] r1.fields ms = _
            rw [hc1]
            exact objNames_nil ms 0 hnd
          refine ⟨?_, hnames, ?_, ?_⟩
          · show (parseList zeroResponse (pre ++ ("fields", .gobj oraw ms) :: post)).2 =
              none
            rw [key]
            exact herr
          · show (parseList zeroResponse
                (pre ++ ("fields", .gobj oraw ms) :: post)).1.FieldNames.length = ms.length
            rw [hnames, idxFrom_length, List.length_map]
          · show (parseList zeroResponse
                (pre ++ ("fields", .gobj oraw ms) :: post)).1.FieldValues =
              ms.map fun p => GVal.num p.2
            rw [key, hfr2'.2.2]
            show r1.FieldValues ++ ms.map (fun p => GVal.num p.2) =
              ms.map fun p => GVal.num p.2
            rw [hv1, List.nil_append]

/-- C3 witness: a two-pair fields object decodes to indices 0 and 1 in
key order with the paired numeric values in `FieldValues`. -/
theorem c3_fields_object_amended_witness :
    (unmarshalText zeroResponse (.valid (.gobj "d"
        [("ok", .gtrue),
         ("fields", .gobj "\x7b\"fY\":999,\"fZ\":123\x7d"
           [("fY", .gnum "999" 999), ("fZ", .gnum "123" 123)])]))).1.FieldNames =
      [("fY", 0), ("fZ", 1)] ∧
    (unmarshalText zeroResponse (.valid (.gobj "d"
        [("ok", .gtrue),
         ("fields", .gobj "\x7b\"fY\":999,\"fZ\":123\x7d"
           [("fY", .gnum "999" 999), ("fZ", .gnum "123" 123)])]))).1.FieldValues =
      [999, 123] :=
  ⟨(c3_fields_object_amended "d" "\x7b\"fY\":999,\"fZ\":123\x7d" [("ok", .gtrue)] []
      [("fY", .gnum "999" 999), ("fZ", .gnum "123" 123)]
      (by decide) (by decide) (by decide)).2.1,
   (c3_fields_object_amended "d" "\x7b\"fY\":999,\"fZ\":123\x7d" [("ok", .gtrue)] []
      [("fY", .gnum "999" 999), ("fZ", .gnum "123" 123)]
      (by decide) (by decide) (by decide)).2.2.2⟩

/-- C4: over object-shaped documents (the decoder's input contract),
the decode fails in exactly three cases, each with its own error kind —
invalid JSON yields `invalidJSON`; otherwise the error is determined by
the first bad member in document order: an unrecognized name yields
`unknownField`, a recognized name (necessarily `fields`) whose value is
neither array nor object yields `unknownFieldType`; and when every
member is good the decode returns the populated response with no
error. -/
theorem c4_failure_taxonomy (raw : String) (kvs : List (String × GVal)) :
    unmarshalText zeroResponse .invalid = (zeroResponse, some .invalidJSON) ∧
    (unmarshalText zeroResponse (.valid (.gobj raw kvs))).2 =
      (kvs.find? fun p => !goodPair p).map
        (fun p => if recognizedKey p.1 then DecodeErr.unknownFieldType
                  else DecodeErr.unknownField) :=
  ⟨rfl, parseList_find kvs zeroResponse⟩

/-- C5: when a decode hits an unrecognized top-level key, the whole
decode returns the unknown-field error, yet the returned receiver state
is exactly the fold of the members before the offending key — fields
assigned earlier remain set, members after the offending key are never
processed and the fields they would set stay at their zero values. -/
theorem c5_unknown_key_state (raw : String) (pre : List (String × GVal)) (k : String)
    (v : GVal) (post : List (String × GVal))
    (hpre : ∀ p ∈ pre, goodPair p = true) (hk : recognizedKey k = false) :
    unmarshalText zeroResponse (.valid (.gobj raw (pre ++ (k, v) :: post))) =
      ((parseList zeroResponse pre).1, some .unknownField) := by
  cases hp : parseList zeroResponse pre with
  | mk r1 e =>
      have h1 := (parseList_frame pre zeroResponse hpre).1
      rw [hp] at h1
      cases e with
      | some d => simp at h1
      | none =>
          show parseList zeroResponse (pre ++ (k, v) :: post) = _
          rw [parseList_append, hp]
          simp only [parseList, parseStep_unknown r1 k v hk]

/-- C5 witness: decoding `{"id":"value1","zzz":true,"err":"later"}`
fails with the unknown-field error while `ID` (assigned before `zzz`)
is kept and `Err` (after `zzz`) stays at its zero value. -/
theorem c5_unknown_key_state_witness :
    unmarshalText zeroResponse (.valid (.gobj "doc"
        [("id", .gstr "value1"), ("zzz", .gtrue), ("err", .gstr "later")])) =
      ({ zeroResponse with ID := "value1" }, some .unknownField) :=
  c5_unknown_key_state "doc" [("id", .gstr "value1")] "zzz" .gtrue
    [("err", .gstr "later")] (by decide) (by decide)

/-- C6: when `Get`'s command reply decodes with `Ok=false`, the session
layer raises the domain error `received error: <Err>`; `Get` converts
exactly the message `"id not found"` into the nil-value/nil-error
result and propagates the server error (carrying the message text) for
every other message. -/
theorem c6_get_notfound_translation (p : Pool) (key id : String) (args : VarArgs)
    (inp : Input) (r' : Response)
    (hsend : p.send "GET" (getArgsList key id args) = .frame inp)
    (hdec : unmarshalText zeroResponse inp = (r', none))
    (hok : r'.Ok = false) :
    (r'.Err = "id not found" →
      dbGet (some p) key id args = (.ok none, [("GET", getArgsList key id args)])) ∧
    (r'.Err ≠ "id not found" →
      dbGet (some p) key id args =
        (.error (.wrapf errResponse r'.Err), [("GET", getArgsList key id args)])) := by
  have hpool : poolDo p "GET" (getArgsList key id args) = .ok r' := by
    simp only [poolDo, hsend, hdec]
  have hrun : runcmd p "GET" (some (getArgsList key id args)) =
      (.error (.wrapf errResponse r'.Err), [("GET", getArgsList key id args)]) := by
    simp only [runcmd, hpool]
    rw [if_neg (by simp [hok])]
  constructor
  · intro he
    simp only [dbGet, hrun]
    rw [if_pos ((received_error_render_iff r'.Err).mpr he)]
  · intro he
    simp only [dbGet, hrun]
    rw [if_neg (fun hh => he ((received_error_render_iff r'.Err).mp hh))]

/-- C6 witness: against a server answering `{"ok":false,"err":"id not
found"}`, `Get` returns no value and no error; against one answering
`{"ok":false,"err":"bad request"}` it returns the server error carrying
"bad request". -/
theorem c6_get_notfound_translation_witness :
    dbGet (some notFoundPool) "mykey" "myid" none =
      (.ok none, [("GET", ["mykey", "myid"])]) ∧
    dbGet (some badRequestPool) "mykey" "myid" none =
      (.error (.wrapf errResponse "bad request"), [("GET", ["mykey", "myid"])]) :=
  ⟨(c6_get_notfound_translation notFoundPool "mykey" "myid" none _
      { zeroResponse with Err := "id not found" } rfl rfl rfl).1 rfl,
   (c6_get_notfound_translation badRequestPool "mykey" "myid" none _
      { zeroResponse with Err := "bad request" } rfl rfl rfl).2 (by decide)⟩

/-- C7: a command execution with a nil variadic argument slice fails
immediately with the invalid-arguments error and sends nothing on the
network — both at the `runcmd` layer and for `Set` called with only key
and id. -/
theorem c7_zero_args_rejected (p : Pool) (cmd key id : String) :
    runcmd p cmd none = (.error errArgs, []) ∧
    dbSet (some p) key id none = (.error errArgs, []) :=
  ⟨rfl, rfl⟩

/-- C8: every public operation invoked on a handle with a nil pool
fails with the uninitialized error before any network activity (the
request log is empty). -/
theorem c8_uninitialized_rejected (key id pattern : String) (seconds : Int)
    (args args2 : VarArgs) :
    dbSet none key id args = (.error errUninitialized, []) ∧
    dbGet none key id args = (.error errUninitialized, []) ∧
    dbScan none key args2 = (.error errUninitialized, []) ∧
    dbSearch none key args2 = (.error errUninitialized, []) ∧
    dbDel none key id = (.error errUninitialized, []) ∧
    dbPDel none key pattern = (.error errUninitialized, []) ∧
    dbExpire none key id seconds = (.error errUninitialized, []) ∧
    dbPersist none key id = (.error errUninitialized, []) ∧
    dbTTL none key id = (.error errUninitialized, []) ∧
    dbClose none = (.error errUninitialized, []) :=
  ⟨rfl, rfl, rfl, rfl, rfl, rfl, rfl, rfl, rfl, rfl⟩

/-- C9: a `time` member never fails the decode — the timestamp parse
error is discarded, leaving `Time` at the zero time when the string
does not parse as RFC 3339 with fractional seconds, and at the parsed
timestamp when it does. -/
theorem c9_time_parse_silent (raw : String) (pre : List (String × GVal)) (s : String)
    (post : List (String × GVal))
    (hpre : ∀ p ∈ pre, goodPair p = true)
    (hpost : ∀ p ∈ post, goodPair p = true ∧ p.1 ≠ "time") :
    (unmarshalText zeroResponse
        (.valid (.gobj raw (pre ++ ("time", .gstr s) :: post)))).2 = none ∧
    (unmarshalText zeroResponse
        (.valid (.gobj raw (pre ++ ("time", .gstr s) :: post)))).1.Time =
      (parseRFC3339Nano s).getD zeroGoTime := by
  cases hp : parseList zeroResponse pre with
  | mk r1 e =>
      have h1 := (parseList_frame pre zeroResponse hpre).1
      rw [hp] at h1
      cases e with
      | some d => simp at h1
      | none =>
          have key : parseList zeroResponse (pre ++ ("time", .gstr s) :: post) =
              parseList { r1 with Time := (parseRFC3339Nano s).getD zeroGoTime } post := by
            rw [parseList_append, hp]
            rfl
          obtain ⟨herr, -, -, htime⟩ := parseList_frame post _ (fun p hp => (hpost p hp).1)
          constructor
          · show (parseList zeroResponse (pre ++ ("time", .gstr s) :: post)).2 = none
            rw [key]
            exact herr
          · show (parseList zeroResponse (pre ++ ("time", .gstr s) :: post)).1.Time = _
            rw [key, htime (fun p hp => (hpost p hp).2)]

/-- C9 witness: the non-timestamp `"notatime"` decodes without error
leaving `Time` at the zero time, while a valid RFC 3339 timestamp with
fractional seconds decodes to its parsed value. -/
theorem c9_time_parse_silent_witness :
    (unmarshalText zeroResponse (.valid (.gobj "d1"
        [("ok", .gtrue), ("time", .gstr "notatime")]))).1.Time = zeroGoTime ∧
    (unmarshalText zeroResponse (.valid (.gobj "d2"
        [("time", .gstr "2018-08-27T19:07:23.578553343Z")]))).1.Time =
      ⟨2018, 8, 27, 19, 7, 23, 578553343, 0⟩ :=
  ⟨(c9_time_parse_silent "d1" [("ok", .gtrue)] "notatime" [] (by decide) (by decide)).2,
   (c9_time_parse_silent "d2" [] "2018-08-27T19:07:23.578553343Z" []
      (by decide) (by decide)).2⟩

/-- C10: the running field-index counter lives on the receiver and is
never reset, and the list fields append in place: decoding a document
with `ids`, `objects` and `fields` into an arbitrary prior receiver
state appends to `IDs` and `Objects`, rebuilds `FieldNames` as a fresh
map, and assigns indices continuing from the receiver's running counter
rather than restarting at 0. -/
theorem c10_field_counter_accumulates (r : Response) (draw iraw oraw fraw : String)
    (ids objs xs : List GVal) (hnd : (xs.map GVal.str).Nodup) :
    unmarshalText r (.valid (.gobj draw
        [("ids", .garr iraw ids), ("objects", .garr oraw objs),
         ("fields", .garr fraw xs)])) =
      ({ r with IDs := r.IDs ++ ids.map GVal.str,
                Objects := r.Objects ++ objs.map GVal.raw,
                FieldNames := idxFrom r.fields (xs.map GVal.str),
                fields := r.fields + xs.length }, none) := by
  show (fieldsArr { r with IDs := r.IDs ++ ids.map GVal.str,
                           Objects := r.Objects ++ objs.map GVal.raw,
                           FieldNames := [] } xs, none) = _
  rw [fieldsArr_eq]
  show ({ r with IDs := r.IDs ++ ids.map GVal.str,
                 Objects := r.Objects ++ objs.map GVal.raw,
                 FieldNames := arrNames [] r.fields xs,
                 fields := r.fields + xs.length }, none) = _
  rw [arrNames_nil xs r.fields hnd]

/-- C10 witness: a second `UnmarshalText` on a receiver that already
holds one id, one object and two field indices appends the new id and
object and rebuilds `FieldNames` as the fresh one-entry map whose index
continues at 2. -/
theorem c10_field_counter_accumulates_witness :
    unmarshalText
        { zeroResponse with IDs := ["value1"], Objects := ["o1"],
                            FieldNames := [("fX", 0), ("fY", 1)], fields := 2 }
        (.valid (.gobj "d"
          [("ids", .garr "ia" [.gstr "value2"]),
           ("objects", .garr "oa" [.gobj "\x7b\"id\":\"v2\"\x7d" []]),
           ("fields", .garr "fa" [.gstr "fZ"])])) =
      ({ zeroResponse with IDs := ["value1", "value2"],
                           Objects := ["o1", "\x7b\"id\":\"v2\"\x7d"],
                           FieldNames := [("fZ", 2)], fields := 3 }, none) :=
  c10_field_counter_accumulates
    { zeroResponse with IDs := ["value1"], Objects := ["o1"],
                        FieldNames := [("fX", 0), ("fY", 1)], fields := 2 }
    "d" "ia" "oa" "fa" [.gstr "value2"] [.gobj "\x7b\"id\":\"v2\"\x7d" []]
    [.gstr "fZ"] (by decide)

end T38c
